import Mathlib

/-!
Verification development for the `sigcheck` Volatility plugin
(`sigcheck.py`): Authenticode signature validation of PE modules
reconstructed from a memory image.

The byte-level logic of the plugin (header parsing, Authenticode digest
preimage construction, the digest-pattern scanner, the page assembler,
the validation orchestration) is embedded directly from the source.
Python byte strings become `List Nat`; Python exceptions become an
explicit `Except PyErr` monad, with one error constructor per Python
exception class raised or caught by the source.

External collaborators that the source calls but does not implement
(the `pefile` library's checksum verification / relocation / section
table, the `hashlib` hash functions, the `openssl` CMS verdict, the
catalog directory) are grouped in a `PEext` record of function
parameters; theorems quantify over them.
-/

set_option maxRecDepth 8000

namespace Sigcheck

/-- A Python byte string: a list of byte values. -/
abbrev Bytes := List Nat

/-- Python slice `d[a:b]` (for `0 ≤ a`, `0 ≤ b`). -/
def slice (d : Bytes) (a b : Nat) : Bytes := (d.take b).drop a

/-- Zero filler `List.replicate n 0` used by buffer reconstruction. -/
def zBytes (n : Nat) : Bytes := List.replicate n 0

/-- The Python exceptions raised or caught by the source, as an error type. -/
inductive PyErr where
  | typeError
  | structError
  | attributeError
  | peFormatError
  | keyError
  | nameError
  | unboundLocal
  deriving DecidableEq

/-- The `ReturnCode` enumeration of `sigcheck.py` (src lines 48-66). -/
inductive ReturnCode where
  | FILEOBJECT_ERROR
  | PE_REBUILT_FAILED
  | PE_CHECKSUM_MISMATCH
  | PARTIAL_CONTENT_PE_DATA_ERROR
  | SIGNED_FILE_NOT_VERIFIED
  | CONTENT_SIGNED_NOT_VERIFIED
  | PARTIAL_CONTENT_MAYBE_CATALOG_SIGNED
  | PARTIAL_CONTENT_NOT_SIGNED
  | AUTHENTICODE_SIGNATURE_MISMATCH_OR_INCORRECT_IMAGEBASE
  | AUTHENTICODE_SIGNATURE_MISMATCH
  | CATALOG_SIGNED
  | MAYBE_CATALOG_SIGNED
  | NOT_SIGNED_OR_INCORRECT_IMAGEBASE
  | NOT_SIGNED
  | NOT_PEB
  | ALREADY_TERMINATED
  | PARTIAL_CERTIFICATE
  | PARTIAL_CONTENT_VERIFIED
  deriving DecidableEq

/-- Python `int(return_code)`: the first component of each enum value. -/
def ReturnCode.toInt : ReturnCode → Nat
  | .FILEOBJECT_ERROR => 1
  | .PE_REBUILT_FAILED => 2
  | .PE_CHECKSUM_MISMATCH => 3
  | .PARTIAL_CONTENT_PE_DATA_ERROR => 4
  | .SIGNED_FILE_NOT_VERIFIED => 5
  | .CONTENT_SIGNED_NOT_VERIFIED => 6
  | .PARTIAL_CONTENT_MAYBE_CATALOG_SIGNED => 7
  | .PARTIAL_CONTENT_NOT_SIGNED => 8
  | .AUTHENTICODE_SIGNATURE_MISMATCH_OR_INCORRECT_IMAGEBASE => 9
  | .AUTHENTICODE_SIGNATURE_MISMATCH => 10
  | .CATALOG_SIGNED => 11
  | .MAYBE_CATALOG_SIGNED => 12
  | .NOT_SIGNED_OR_INCORRECT_IMAGEBASE => 13
  | .NOT_SIGNED => 14
  | .NOT_PEB => 15
  | .ALREADY_TERMINATED => 16
  | .PARTIAL_CERTIFICATE => 17
  | .PARTIAL_CONTENT_VERIFIED => 18

/-- A validation outcome: the source returns either a `ReturnCode` member or
a plain string (the CMS verifier verdict, possibly formatted). -/
inductive VResult where
  | code (c : ReturnCode)
  | str (s : String)
  deriving DecidableEq

/-- The three hash algorithms the signature scanner recognises. -/
inductive HashAlg where
  | md5
  | sha1
  | sha256
  deriving DecidableEq

/-- The kinds of section object the validators distinguish (src lines 336-340). -/
inductive SectionKind where
  | image
  | data
  deriving DecidableEq

/-- One resident page run handed to `read_file_memory`:
`mdata[0]` memory offset, `mdata[1]` offset in the reconstruction,
`mdata[2]` byte count (src lines 358-365). -/
structure PageSpan where
  memOff : Nat
  fileOff : Nat
  count : Nat

/-- The fields of a dumpfiles FileObject dict used by the validators. -/
structure FileObject where
  name : String
  kind : SectionKind
  present : List PageSpan

/-- One `(module_path, module_name, pid)` tuple of `calculate` (src line 152). -/
structure ModuleEntry where
  path : String
  name : String
  pid : Nat

/-- The stale `task` variable consulted by `calculate` when a module has no
path (src lines 169-172): image file name and `ExitTime` truthiness of the
last enumerated task, or `none` when no task was ever bound. -/
structure TaskInfo where
  imageFileName : String
  exitTime : Bool

/-- External collaborators of the plugin, as function parameters:
`pefile`'s checksum verification, relocation and layout fields, the
`openssl` CMS verdict string, the catalog directory lookup, and the
`hashlib` digest family. -/
structure PEext where
  checksumOk : Bytes → Bool
  relocate : Bytes → Nat → Except PyErr Bytes
  sizeOfHeaders : Bytes → Nat
  sectionRawSizes : Bytes → List Nat
  verdict : Bytes → String
  catalogHas : Bytes → Bool
  H : HashAlg → Bytes → Bytes

/-- Model of `struct.unpack` of a little-endian dword: exactly four bytes, else
`struct.error` (src lines 625-626). -/
def unpack_dword (bs : Bytes) : Except PyErr Nat :=
  match bs with
  | [b0, b1, b2, b3] => pure (b0 + 256 * b1 + 65536 * b2 + 16777216 * b3)
  | _ => throw .structError

/-- Model of `struct.pack` of a little-endian dword (src lines 628-629); values not
fitting 32 bits raise `struct.error`. -/
def pack_dword (x : Nat) : Except PyErr Bytes :=
  if x < 4294967296 then
    pure [x % 256, x / 256 % 256, x / 65536 % 256, x / 16777216 % 256]
  else throw .structError

/-- Model of `struct.pack` of a little-endian qword (src lines 634-635). -/
def pack_qword (x : Nat) : Except PyErr Bytes :=
  if x < 18446744073709551616 then
    pure [x % 256, x / 256 % 256, x / 65536 % 256, x / 16777216 % 256,
          x / 4294967296 % 256, x / 1099511627776 % 256,
          x / 281474976710656 % 256, x / 72057594037927936 % 256]
  else throw .structError

/-- Embeds `get_nt_header_addr` (src lines 591-603): require `MZ` at offset 0, read
the dword at `0x3c`, require `PE\0\0` there; `none` models the implicit
Python `None` returns, a thrown `struct.error` models a short `0x3c` read. -/
def get_nt_header_addr (d : Bytes) : Except PyErr (Option Nat) :=
  if slice d 0 2 = [0x4d, 0x5a] then do
    let nt ← unpack_dword (slice d 0x3c 0x40)
    if slice d nt (nt + 4) = [0x50, 0x45, 0x00, 0x00] then pure (some nt)
    else pure none
  else pure none

/-- Embeds `is_32bits` (src lines 444-449): magic word `0x010B` at `nt + 0x18`.
When `get_nt_header_addr` returned `None`, Python indexes with `None` and
raises `TypeError`. -/
def is_32bits (d : Bytes) : Except PyErr Bool := do
  match ← get_nt_header_addr d with
  | none => throw .typeError
  | some nt => pure (slice d (nt + 0x18) (nt + 0x1a) = [0x0b, 0x01])

/-- Embeds `is_64bits` (src lines 451-456): magic word `0x020B` at `nt + 0x18`. -/
def is_64bits (d : Bytes) : Except PyErr Bool := do
  match ← get_nt_header_addr d with
  | none => throw .typeError
  | some nt => pure (slice d (nt + 0x18) (nt + 0x1a) = [0x0b, 0x02])

/-- Embeds `get_pe_certificate_attibutes` (src lines 605-623): Security directory
entry offset (`nt + 0x98` for 32-bit, `nt + 0xa8` for 64-bit), and its
`VirtualAddress` and `Size` dwords. With an unrecognised magic the Python
local `certificate_table_addr` is never assigned (`UnboundLocalError`). -/
def get_pe_certificate_attibutes (d : Bytes) : Except PyErr (Nat × Nat × Nat) := do
  let nt? ← get_nt_header_addr d
  let b32 ← is_32bits d
  let tbl? ←
    if b32 then
      match nt? with
      | some nt => pure (some (nt + 0x98))
      | none => throw .typeError
    else do
      let b64 ← is_64bits d
      if b64 then
        match nt? with
        | some nt => pure (some (nt + 0xa8))
        | none => throw .typeError
      else pure (none : Option Nat)
  match tbl? with
  | none => throw .unboundLocal
  | some tbl => do
    let va ← unpack_dword (slice d tbl (tbl + 4))
    let sz ← unpack_dword (slice d (tbl + 4) (tbl + 8))
    pure (tbl, va, sz)

/-- Successful construction of `pefile.PE(data=d, fast_load=True)`: the
library checks the `MZ` / `PE\0\0` signatures and raises `PEFormatError`
otherwise; modelled through the same header reads as the source's own
layout reader. -/
def parsePE_ok (d : Bytes) : Except PyErr Unit :=
  match get_nt_header_addr d with
  | .ok (some _) => .ok ()
  | _ => .error .peFormatError

/-- Embeds `calculate_pe_digest` (src lines 560-589): build the Authenticode hash
preimage, skipping the `CheckSum` dword, the 8-byte Security directory
entry and, when both `VirtualAddress` and `Size` are nonzero, the embedded
signature blob; then apply the chosen `hashlib` algorithm. Passing
`algorithm = None` (as `validate_data_section` does for an unparseable
signature) makes `getattr(hashlib, None)` raise `TypeError`. -/
def calculate_pe_digest (ext : PEext) (alg : Option HashAlg) (raw : Bytes) :
    Except PyErr Bytes := do
  match ← get_nt_header_addr raw with
  | none => throw .typeError
  | some nt => do
    let checksum_addr := nt + 0x58
    let (tbl, va, sz) ← get_pe_certificate_attibutes raw
    let data := slice raw 0 checksum_addr ++ slice raw (checksum_addr + 4) tbl
    let data :=
      if va ≠ 0 ∧ sz ≠ 0 then
        data ++ slice raw (tbl + 8) va ++ raw.drop (va + sz)
      else
        data ++ raw.drop (tbl + 8)
    match alg with
    | none => throw .typeError
    | some a => pure (ext.H a data)

/-! ### The `CERTIFICATE_REGEX` digest scanner (src lines 45, 464-490)

The pattern `30 . 30 . 06 . (.{5,9}) 05 00 04 (.)` is compiled without
`re.DOTALL`, so every `.` wildcard matches any byte except `0x0a`.
`re.search` finds the leftmost start position; at that position the greedy
`{5,9}` quantifier tries the longest OID length first and backtracks. -/

/-- A regex `.` wildcard at index `i`: a byte exists there and is not `\n`. -/
def dotOk (s : Bytes) (i : Nat) : Bool :=
  match s.get? i with
  | some b => b ≠ 0x0a
  | none => false

/-- A literal byte `v` at index `i`. -/
def litOk (s : Bytes) (i v : Nat) : Bool := s.get? i == some v

/-- The `oid_algorithm` group: `n` wildcard bytes starting at `i`. -/
def oidPart (s : Bytes) (i n : Nat) : Option Bytes :=
  let o := slice s i (i + n)
  if o.length = n ∧ o.all (fun b => decide (b ≠ 0x0a)) then some o else none

/-- Try the pattern tail at start `i` with OID length `n`: the OID group,
then `05 00 04`, then the `hash_size` wildcard. Returns
`(oid, hash_size, match_end)`. -/
def tailAt (s : Bytes) (i n : Nat) : Option (Bytes × Nat × Nat) :=
  match oidPart s (i + 6) n, s.get? (i + 9 + n) with
  | some oid, some hs =>
    if litOk s (i + 6 + n) 0x05 && litOk s (i + 7 + n) 0x00 &&
        litOk s (i + 8 + n) 0x04 && decide (hs ≠ 0x0a) then
      some (oid, hs, i + 10 + n)
    else none
  | _, _ => none

/-- Greedy backtracking over the candidate OID lengths. -/
def tryLens (s : Bytes) (i : Nat) : List Nat → Option (Bytes × Nat × Nat)
  | [] => none
  | n :: ns =>
    match tailAt s i n with
    | some r => some r
    | none => tryLens s i ns

/-- The fixed pattern head `30 . 30 . 06 .` at start `i`. -/
def headOk (s : Bytes) (i : Nat) : Bool :=
  litOk s i 0x30 && dotOk s (i + 1) && litOk s (i + 2) 0x30 &&
    dotOk s (i + 3) && litOk s (i + 4) 0x06 && dotOk s (i + 5)

/-- One attempted match of `CERTIFICATE_REGEX` at start position `i`. -/
def matchCertAt (s : Bytes) (i : Nat) : Option (Bytes × Nat × Nat) :=
  if headOk s i then tryLens s i [9, 8, 7, 6, 5] else none

/-- Scan start positions `i, i+1, …` (`fuel` many of them). -/
def certSearchFrom (s : Bytes) : Nat → Nat → Option (Bytes × Nat × Nat)
  | _, 0 => none
  | i, fuel + 1 =>
    match matchCertAt s i with
    | some r => some r
    | none => certSearchFrom s (i + 1) fuel

/-- Model of `CERTIFICATE_REGEX.search`: the leftmost match, if any. -/
def certSearch (s : Bytes) : Option (Bytes × Nat × Nat) :=
  certSearchFrom s 0 (s.length + 1)

/-- The DER encoding of the md5 OID (src line 470). -/
def OID_md5 : Bytes := [0x2a, 0x86, 0x48, 0x86, 0xf7, 0x0d, 0x02, 0x05]

/-- The DER encoding of the sha1 OID (src line 471). -/
def OID_sha1 : Bytes := [0x2b, 0x0e, 0x03, 0x02, 0x1a]

/-- The DER encoding of the sha256 OID (src line 472). -/
def OID_sha256 : Bytes := [0x60, 0x86, 0x48, 0x01, 0x65, 0x03, 0x04, 0x02, 0x01]

/-- The possible returns of `get_digest_from_signature`: a recognised
`(algorithm, digest)` pair, the explicit `(None, 0x00)` pair of the
no-match branch, or the bare `None` that falls out of the function when
the pattern matched but the OID is none of the three recognised ones. -/
inductive SigDigestResult where
  | found (alg : HashAlg) (digest : Bytes)
  | noMatch
  | bareNone
  deriving DecidableEq

/-- Embeds `get_digest_from_signature` (src lines 464-490). -/
def get_digest_from_signature (signature : Bytes) : SigDigestResult :=
  match certSearch signature with
  | some (oid, hs, endPos) =>
    let digest := slice signature endPos (endPos + hs)
    if oid = OID_md5 then .found .md5 digest
    else if oid = OID_sha1 then .found .sha1 digest
    else if oid = OID_sha256 then .found .sha256 digest
    else .bareNone
  | none => .noMatch

/-- Embeds `has_cert` (src lines 719-722): `(Size and VirtualAddress) != 0`, which
in Python evaluates to `Size ≠ 0 ∧ VirtualAddress ≠ 0`. -/
def has_cert (d : Bytes) : Except PyErr Bool := do
  let (_, va, sz) ← get_pe_certificate_attibutes d
  pure (sz ≠ 0 ∧ va ≠ 0)

/-- Embeds `extract_cert` (src lines 705-717): the `WIN_CERTIFICATE` blob slice, or
the implicit `None` when `has_cert` is false. -/
def extract_cert (d : Bytes) : Except PyErr (Option Bytes) := do
  let (_, va, sz) ← get_pe_certificate_attibutes d
  if sz ≠ 0 ∧ va ≠ 0 then pure (some (slice d va (va + sz))) else pure none

/-- Embeds `verify_pe` (src lines 409-426). `if cert:` is Python truthiness: the
branch is taken only for a nonempty blob. A bare-`None` scanner return
makes the tuple unpacking on line 412 raise `TypeError`. -/
def verify_pe (ext : PEext) (d : Bytes) : Except PyErr VResult := do
  let cert? ← extract_cert d
  match cert? with
  | some cert =>
    if cert ≠ [] then
      match get_digest_from_signature cert with
      | .bareNone => throw .typeError
      | .noMatch => pure (.code .PARTIAL_CERTIFICATE)
      | .found alg hash_file => do
        let digest ← calculate_pe_digest ext (some alg) d
        if hash_file = digest then pure (.str (ext.verdict cert))
        else pure (.code .AUTHENTICODE_SIGNATURE_MISMATCH)
    else do
      let digest ← calculate_pe_digest ext (some .sha1) d
      if ext.catalogHas digest then pure (.code .CATALOG_SIGNED)
      else pure (.code .NOT_SIGNED)
  | none => do
    let digest ← calculate_pe_digest ext (some .sha1) d
    if ext.catalogHas digest then pure (.code .CATALOG_SIGNED)
    else pure (.code .NOT_SIGNED)

/-- Embeds `calculate_pe_size` (src lines 683-703): `SizeOfHeaders` plus the sum of
all sections' `SizeOfRawData` plus the Security directory `Size`. -/
def calculate_pe_size (ext : PEext) (d : Bytes) : Except PyErr Nat := do
  parsePE_ok d
  let (_, _, sz) ← get_pe_certificate_attibutes d
  pure (ext.sizeOfHeaders d + (ext.sectionRawSizes d).sum + sz)

/-- Embeds `delete_padding` (src lines 669-681): truncate to `calculate_pe_size`. -/
def delete_padding (ext : PEext) (content : Bytes) : Except PyErr Bytes := do
  let n ← calculate_pe_size ext content
  pure (content.take n)

/-- Embeds `validate_data_section` (src lines 525-558). Note that when the scanner
returns `(None, 0x00)` this function, unlike `verify_pe`, has no
`if algorithm:` guard: it calls `calculate_pe_digest(None, content)`,
which raises `TypeError` inside `getattr(hashlib, None)`. (The comparison
`0x00 == digest` after it would be false, so the dead continuation is the
mismatch branch.) A bare-`None` scanner return already breaks the tuple
unpacking on line 543. -/
def validate_data_section (ext : PEext) (content : Bytes) : Except PyErr VResult := do
  let content ← delete_padding ext content
  parsePE_ok content
  if ext.checksumOk content then do
    let cert? ← extract_cert content
    match cert? with
    | some cert =>
      if cert ≠ [] then
        match get_digest_from_signature cert with
        | .bareNone => throw .typeError
        | .noMatch => do
          let _digest ← calculate_pe_digest ext none content
          pure (.code .AUTHENTICODE_SIGNATURE_MISMATCH)
        | .found alg hash_file => do
          let digest ← calculate_pe_digest ext (some alg) content
          if hash_file = digest then pure (.str (ext.verdict cert))
          else pure (.code .AUTHENTICODE_SIGNATURE_MISMATCH)
      else do
        let digest ← calculate_pe_digest ext (some .sha1) content
        if ext.catalogHas digest then pure (.code .CATALOG_SIGNED)
        else pure (.code .NOT_SIGNED)
    | none => do
      let digest ← calculate_pe_digest ext (some .sha1) content
      if ext.catalogHas digest then pure (.code .CATALOG_SIGNED)
      else pure (.code .NOT_SIGNED)
  else pure (.code .PE_CHECKSUM_MISMATCH)

/-- Embeds `set_imagebase` (src lines 436-442): patch the `ImageBase` field (dword
at `nt + 0x34` for 32-bit, qword at `nt + 0x30` for 64-bit); the implicit
`None` return for an unrecognised magic is `none`. -/
def set_imagebase (imagebase : Nat) (content : Bytes) : Except PyErr (Option Bytes) := do
  match ← get_nt_header_addr content with
  | none => throw .typeError
  | some nt => do
    let b32 ← is_32bits content
    if b32 then do
      let p ← pack_dword imagebase
      pure (some (content.take (nt + 0x34) ++ p ++ content.drop (nt + 0x38)))
    else do
      let b64 ← is_64bits content
      if b64 then do
        let p ← pack_qword imagebase
        pure (some (content.take (nt + 0x30) ++ p ++ content.drop (nt + 0x38)))
      else pure none

/-- The body of one iteration of the rebase loop of `validate_image_section`
(src lines 394-401): re-parse, relocate to the candidate base, patch the
`ImageBase` field, re-parse, and on a checksum match return the
`verify_pe` verdict (`some r`); `none` means the checksum still fails.
`pefile.PE(data=None)` after a `None` from `set_imagebase` raises. -/
def attempt (ext : PEext) (content : Bytes) (b : Nat) : Except PyErr (Option VResult) := do
  parsePE_ok content
  let reloc ← ext.relocate content b
  let newc? ← set_imagebase b reloc
  match newc? with
  | none => throw .typeError
  | some newc => do
    parsePE_ok newc
    if ext.checksumOk newc then do
      let r ← verify_pe ext newc
      pure (some r)
    else pure none

/-- The candidate-base loop of `validate_image_section` (src lines 388-407):
candidates above `0xffffffff` are skipped for 32-bit images; a caught
`AttributeError` or `struct.error` advances to the next candidate; other
exceptions propagate; an exhausted list yields `PE_REBUILT_FAILED`. -/
def rebaseLoop (ext : PEext) (content : Bytes) (is32 : Bool) :
    List Nat → Except PyErr VResult
  | [] => pure (.code .PE_REBUILT_FAILED)
  | b :: rest =>
    if is32 && decide (0xffffffff < b) then rebaseLoop ext content is32 rest
    else
      match attempt ext content b with
      | .ok (some r) => pure r
      | .ok none => rebaseLoop ext content is32 rest
      | .error .attributeError => rebaseLoop ext content is32 rest
      | .error .structError => rebaseLoop ext content is32 rest
      | .error e => .error e

/-- Model of `self.frequent_addresses` indexing: dict indexing, `KeyError` when the
extension is absent. -/
def lookupFreq (freq : List (String × List Nat)) (k : String) : Except PyErr (List Nat) :=
  match freq.lookup k with
  | some v => pure v
  | none => throw .keyError

/-- Embeds `validate_image_section` (src lines 379-407). -/
def validate_image_section (ext : PEext) (freq : List (String × List Nat))
    (content : Bytes) (file_type : String) : Except PyErr VResult := do
  let content ← delete_padding ext content
  parsePE_ok content
  let b32 ← is_32bits content
  if ext.checksumOk content then verify_pe ext content
  else do
    let cands ← lookupFreq freq file_type
    rebaseLoop ext content b32 cands

/-! ### Page assembly (src lines 345-377) -/

/-- The `BytesIO` state: buffer contents and the current position. -/
structure BIO where
  buf : Bytes
  pos : Nat

/-- Model of `BytesIO.write` after a `seek`: a write past the end zero-fills the gap,
a write inside the buffer overwrites in place, and the buffer grows only
as far as the written data reaches. -/
def bio_write (st : BIO) (r : Bytes) : BIO :=
  ⟨st.buf.take st.pos ++ zBytes (st.pos - st.buf.length) ++ r ++
    st.buf.drop (st.pos + r.length), st.pos + r.length⟩

/-- One loop iteration of `read_file_memory` (src lines 358-372): mask the
memory offset to 32 bits, read, seek to the file offset, and write only
when the read produced truthy (nonempty) data. -/
def rfmStep (memRead : Nat → Nat → Option Bytes) (st : BIO) (sp : PageSpan) : BIO :=
  let addr := sp.memOff % 4294967296
  let st' : BIO := ⟨st.buf, sp.fileOff⟩
  match memRead addr sp.count with
  | some r => if r = [] then st' else bio_write st' r
  | none => st'

/-- The page loop of `read_file_memory`. -/
def rfmLoop (memRead : Nat → Nat → Option Bytes) (st : BIO) : List PageSpan → BIO
  | [] => st
  | sp :: rest => rfmLoop memRead (rfmStep memRead st sp) rest

/-- Embeds `read_file_memory` (src lines 345-377): assemble the resident pages into
one buffer, starting from an empty `BytesIO`. -/
def read_file_memory (memRead : Nat → Nat → Option Bytes) (present : List PageSpan) : Bytes :=
  (rfmLoop memRead ⟨[], 0⟩ present).buf

/-- The number of bytes a span's read actually delivers (0 on failure). -/
def spanSuccessLen (memRead : Nat → Nat → Option Bytes) (sp : PageSpan) : Nat :=
  match memRead (sp.memOff % 4294967296) sp.count with
  | some r => r.length
  | none => 0

/-- Position `i` of the reconstruction is covered by a successful read. -/
def coveredBySuccess (memRead : Nat → Nat → Option Bytes) (present : List PageSpan)
    (i : Nat) : Bool :=
  present.any fun sp =>
    decide (sp.fileOff ≤ i) && decide (i < sp.fileOff + spanSuccessLen memRead sp)

/-! ### Full and partial validation entry points -/

/-- Embeds `get_pe_type` (src lines 342-343): the lowercased last `.`-separated
component of the name. -/
def get_pe_type (name : String) : String :=
  ((name.splitOn ".").getLastD "").toLower

/-- Embeds `validate_file` (src lines 322-340): dispatch on the section kind. -/
def validate_file (ext : PEext) (memRead : Nat → Nat → Option Bytes)
    (freq : List (String × List Nat)) (fo : FileObject) : Except PyErr VResult :=
  let content := read_file_memory memRead fo.present
  let file_type := get_pe_type fo.name
  match fo.kind with
  | .image => validate_image_section ext freq content file_type
  | .data => validate_data_section ext content

/-- Match a literal character run, returning the rest of the input. -/
def matchLit : List Char → List Char → Option (List Char)
  | [], rest => some rest
  | _ :: _, [] => none
  | p :: ps, c :: cs => if c = p then matchLit ps cs else none

/-- Python 2 `\w` for a plain (non-unicode) pattern: `[a-zA-Z0-9_]`. -/
def isWordChar (c : Char) : Bool := c.isAlphanum || c = '_'

/-- Model of the Windows-path prefix test of src line 741, a `re.match`
against the raw pattern backslash-Device backslash-HarddiskVolume[0-9]
backslash-Windows, under Python 2 regex semantics: `\D` is a non-digit
class, `\W` a non-word class, and the unknown escape `\H` is the literal
`H`, so the compiled pattern is
`[^0-9] evice HarddiskVolume [0-9] [^a-zA-Z0-9_] indows`,
anchored at the start of the name. -/
def windows_path_match (name : String) : Bool :=
  (match name.data with
    | [] => none
    | c0 :: r0 =>
      if c0.isDigit then none
      else
        match matchLit "eviceHarddiskVolume".data r0 with
        | none => none
        | some r1 =>
          match r1 with
          | [] => none
          | cd :: r2 =>
            if cd.isDigit then
              match r2 with
              | [] => none
              | cw :: r3 =>
                if isWordChar cw then none else matchLit "indows".data r3
            else none).isSome

/-- The description string of `ReturnCode.PARTIAL_CONTENT_VERIFIED`
(src line 66), used by the partial-path format string (src line 733). -/
def partialVerifiedDescr : String :=
  "Partial file content. Unable to compare file hash and signature hash"

/-- Format string of src line 733: the `PARTIAL_CONTENT_VERIFIED`
description followed by the verifier verdict. -/
def formatPartialVerified (v : String) : String :=
  partialVerifiedDescr ++ ". Signature verification: " ++ v

/-- The body of the `try:` block of `validate_partial_file`
(src lines 727-744). -/
def partialBody (ext : PEext) (fo : FileObject) (content : Bytes) :
    Except PyErr VResult := do
  parsePE_ok content
  let hc ← has_cert content
  if hc then
    match fo.kind with
    | .data => do
      let cert? ← extract_cert content
      match cert? with
      | some cert =>
        if cert ≠ [] then pure (.str (formatPartialVerified (ext.verdict cert)))
        else pure (.code .CONTENT_SIGNED_NOT_VERIFIED)
      | none => pure (.code .CONTENT_SIGNED_NOT_VERIFIED)
    | .image => pure (.code .CONTENT_SIGNED_NOT_VERIFIED)
  else
    if windows_path_match fo.name then pure (.code .PARTIAL_CONTENT_MAYBE_CATALOG_SIGNED)
    else pure (.code .PARTIAL_CONTENT_NOT_SIGNED)

/-- Embeds `validate_partial_file` (src lines 724-748): only `pefile.PEFormatError`
is caught; every other exception escapes. -/
def validate_partial_file (ext : PEext) (memRead : Nat → Nat → Option Bytes)
    (fo? : Option FileObject) : Except PyErr VResult :=
  match fo? with
  | none => pure (.code .FILEOBJECT_ERROR)
  | some fo =>
    let content := read_file_memory memRead fo.present
    match partialBody ext fo content with
    | .error .peFormatError => pure (.code .PARTIAL_CONTENT_PE_DATA_ERROR)
    | .error e => .error e
    | .ok r => pure r

/-! ### The orchestrator `calculate` (src lines 132-174)

The generator is embedded as a recursion producing the full yielded list;
its `try:` block has a `finally:` clause but no `except`, so an exception
raised while validating a module escapes to the consumer, modelled as the
whole run returning `Except.error`. -/

/-- Handling of one module by `calculate`: the yielded triple and the
updated `already_analyzed` cache. -/
def calcOne (ext : PEext) (memRead : Nat → Nat → Option Bytes)
    (freq : List (String × List Nat)) (getFO : String → Bool × Option FileObject)
    (lastTask : Option TaskInfo) (cache : List (String × VResult)) (m : ModuleEntry) :
    Except PyErr ((String × Nat × VResult) × List (String × VResult)) := do
  match cache.lookup m.path with
  | some r => pure ((m.name, m.pid, r), cache)
  | none =>
    if m.path ≠ "" then do
      let (is_complete, fo?) := getFO m.path
      if is_complete then
        match fo? with
        | some fo => do
          let r ← validate_file ext memRead freq fo
          pure ((m.name, m.pid, r), (m.path, r) :: cache)
        | none => throw .typeError
      else do
        let r ← validate_partial_file ext memRead fo?
        pure ((m.name, m.pid, r), (m.path, r) :: cache)
    else
      match lastTask with
      | none => throw .nameError
      | some t =>
        if t.exitTime then pure ((t.imageFileName, m.pid, .code .ALREADY_TERMINATED), cache)
        else pure ((t.imageFileName, m.pid, .code .NOT_PEB), cache)

/-- The module loop of `calculate`. -/
def calcLoop (ext : PEext) (memRead : Nat → Nat → Option Bytes)
    (freq : List (String × List Nat)) (getFO : String → Bool × Option FileObject)
    (lastTask : Option TaskInfo) (cache : List (String × VResult)) :
    List ModuleEntry → Except PyErr (List (String × Nat × VResult))
  | [] => pure []
  | m :: rest => do
    let (t, cache') ← calcOne ext memRead freq getFO lastTask cache m
    let ts ← calcLoop ext memRead freq getFO lastTask cache' rest
    pure (t :: ts)

/-- Embeds `calculate` (src lines 132-174), starting from an empty cache. -/
def calculate (ext : PEext) (memRead : Nat → Nat → Option Bytes)
    (freq : List (String × List Nat)) (getFO : String → Bool × Option FileObject)
    (lastTask : Option TaskInfo) (mods : List ModuleEntry) :
    Except PyErr (List (String × Nat × VResult)) :=
  calcLoop ext memRead freq getFO lastTask [] mods

/-! ### Concrete fixtures

Small well-formed 32-bit PE buffers: e_lfanew `0x40`, so the magic word is
at `0x58`, the `ImageBase` dword at `0x74`, the `CheckSum` dword at
`0x98`, the Security directory entry at `0xd8`, and a certificate blob,
when present, at `0xe0`. -/

/-- A `WIN_CERTIFICATE` blob whose digest pattern matches with the sha1 OID
(after greedy backtracking from length 9 down to 5), `hash_size = 1`,
expected digest `[0xcc]`. -/
def certBlobSha1 : Bytes :=
  [0x30, 0x01, 0x30, 0x01, 0x06, 0x05, 0x2b, 0x0e, 0x03, 0x02, 0x1a,
   0x05, 0x00, 0x04, 0x01, 0xcc] ++ zBytes 16

/-- A 256-byte signed 32-bit PE image: Security directory `(0xe0, 0x20)`,
`certBlobSha1` at `0xe0`, `ImageBase` bytes zero. -/
def SIG32 : Bytes :=
  [0x4d, 0x5a] ++ zBytes 58 ++ [0x40, 0, 0, 0] ++ [0x50, 0x45, 0, 0] ++
    zBytes 20 ++ [0x0b, 0x01] ++ zBytes 126 ++ [0xe0, 0, 0, 0] ++
    [0x20, 0, 0, 0] ++ certBlobSha1

/-- A 240-byte 32-bit PE whose Security directory is `(0xe0, 0x10)` but
whose 16-byte certificate blob (all `0xff`) does not match the digest
pattern. -/
def BADCERT32 : Bytes :=
  [0x4d, 0x5a] ++ zBytes 58 ++ [0x40, 0, 0, 0] ++ [0x50, 0x45, 0, 0] ++
    zBytes 20 ++ [0x0b, 0x01] ++ zBytes 126 ++ [0xe0, 0, 0, 0] ++
    [0x10, 0, 0, 0] ++ List.replicate 16 0xff

/-- A 224-byte 32-bit PE with a zero Security directory entry. -/
def NOCERT32 : Bytes :=
  [0x4d, 0x5a] ++ zBytes 58 ++ [0x40, 0, 0, 0] ++ [0x50, 0x45, 0, 0] ++
    zBytes 20 ++ [0x0b, 0x01] ++ zBytes 126 ++ [0, 0, 0, 0] ++ [0, 0, 0, 0]

/-- The first `0x98` bytes of a 32-bit test image (everything before the
`CheckSum` field). -/
def hdrA : Bytes :=
  [0x4d, 0x5a] ++ zBytes 58 ++ [0x40, 0, 0, 0] ++ [0x50, 0x45, 0, 0] ++
    zBytes 20 ++ [0x0b, 0x01] ++ zBytes 62

/-- Bytes `[0x9c, 0xe0)` of the test image: the gap after `CheckSum`
followed by the Security directory entry `(0xe0, 0x20)`. -/
def midB : Bytes := zBytes 60 ++ [0xe0, 0, 0, 0] ++ [0x20, 0, 0, 0]

/-- A blob matching the digest pattern with an unrecognised 5-byte OID
`2b 0e 03 02 1b`. -/
def unknownOidBlob : Bytes :=
  [0x30, 0x00, 0x30, 0x00, 0x06, 0x05, 0x2b, 0x0e, 0x03, 0x02, 0x1b,
   0x05, 0x00, 0x04, 0x01, 0xaa]

/-- A toy external environment: the "checksum" succeeds exactly when the
`ImageBase` dword holds `0x400000`, relocation is the identity on the
buffer, the header/section layout makes `calculate_pe_size` return
`0xe0 + cert_size`, and every hash digests to `[0xab]`. -/
def extReb : PEext where
  checksumOk := fun c => decide (slice c 0x74 0x78 = [0, 0, 0x40, 0])
  relocate := fun c _ => pure c
  sizeOfHeaders := fun _ => 0xe0
  sectionRawSizes := fun _ => []
  verdict := fun _ => "Verification successful"
  catalogHas := fun _ => false
  H := fun _ _ => [0xab]

/-- A toy external environment whose checksum always verifies. -/
def extOk : PEext where
  checksumOk := fun _ => true
  relocate := fun c _ => pure c
  sizeOfHeaders := fun _ => 0xe0
  sectionRawSizes := fun _ => []
  verdict := fun _ => "Verification successful"
  catalogHas := fun _ => false
  H := fun _ _ => [0xab]

/-- A memory reader for the C9 witness: only address 8 with length 3 is
readable. -/
def w9read : Nat → Nat → Option Bytes :=
  fun a n => if a = 8 ∧ n = 3 then some [1, 2, 3] else none

/-- Two spans: one successful write at file offset 4, one failed read at
file offset 0. -/
def w9spans : List PageSpan := [⟨8, 4, 3⟩, ⟨99, 0, 2⟩]

/-- A memory reader serving `NOCERT32` at address 0. -/
def mrNoCert : Nat → Nat → Option Bytes :=
  fun a n => if a = 0 ∧ n = 224 then some NOCERT32 else none

/-- A partially resident image-kind file object with no embedded cert and a
non-device name. -/
def foNoCert : FileObject := ⟨"foo.exe", .image, [⟨0, 0, 224⟩]⟩

/-- The same content under a `\Device\HarddiskVolumeN\Windows` name. -/
def foWin : FileObject :=
  ⟨"\\Device\\HarddiskVolume1\\Windows\\System32\\calc.exe", .image, [⟨0, 0, 224⟩]⟩

/-- A memory reader serving `SIG32` at address 0. -/
def mrSig : Nat → Nat → Option Bytes :=
  fun a n => if a = 0 ∧ n = 256 then some SIG32 else none

/-- A partially resident image-kind file object whose content carries an
embedded cert. -/
def foSig : FileObject := ⟨"bar.exe", .image, [⟨0, 0, 256⟩]⟩

/-- A memory reader serving junk (not a PE) at address 0. -/
def mrJunk : Nat → Nat → Option Bytes :=
  fun a n => if a = 0 ∧ n = 3 then some [1, 2, 3] else none

/-- A fully-resident data-kind file object whose content is the junk. -/
def foJunk : FileObject := ⟨"m.exe", .data, [⟨0, 0, 3⟩]⟩

/-- A file-object finder returning the junk file object as fully resident. -/
def gfoJunk : String → Bool × Option FileObject := fun _ => (true, some foJunk)

/-! ### Monad and list helper lemmas -/

theorem exbind_ok {α β : Type} (a : α) (f : α → Except PyErr β) :
    (Except.ok a : Except PyErr α) >>= f = f a := rfl

theorem exbind_error {α β : Type} (e : PyErr) (f : α → Except PyErr β) :
    (Except.error e : Except PyErr α) >>= f = Except.error e := rfl

theorem expure {α : Type} (a : α) : (pure a : Except PyErr α) = Except.ok a := rfl

theorem take_append_of_le (A r : Bytes) (b : Nat) (h : b ≤ A.length) :
    (A ++ r).take b = A.take b := by
  rw [List.take_append_eq_append_take, Nat.sub_eq_zero_of_le h, List.take_zero,
    List.append_nil]

theorem drop_append_of_ge (A r : Bytes) (n : Nat) (h : A.length ≤ n) :
    (A ++ r).drop n = r.drop (n - A.length) := by
  rw [List.drop_append_eq_append_drop, List.drop_eq_nil_of_le h, List.nil_append]

theorem slice_append_of_le (A r : Bytes) (a b : Nat) (h : b ≤ A.length) :
    slice (A ++ r) a b = slice A a b := by
  unfold slice
  rw [take_append_of_le A r b h]

theorem slice_append_of_ge (A r : Bytes) (a b : Nat)
    (ha : A.length ≤ a) (hb : A.length ≤ b) :
    slice (A ++ r) a b = slice r (a - A.length) (b - A.length) := by
  unfold slice
  rw [List.take_append_eq_append_take, List.take_of_length_le hb,
    drop_append_of_ge A (r.take (b - A.length)) a ha]

theorem slice_prefix_whole (A r : Bytes) : slice (A ++ r) 0 A.length = A := by
  unfold slice
  rw [List.take_left, List.drop_zero]

/-- A slice that lies inside the `B` component of `A ++ (c ++ (B ++ r))`
(with `c` of length 4) only depends on `B`. -/
theorem slice_mid (A c B r : Bytes) (x y : Nat) (h4 : c.length = 4)
    (hx : A.length + 4 ≤ x) (hy1 : A.length + 4 ≤ y)
    (hy2 : y ≤ A.length + 4 + B.length) :
    slice (A ++ (c ++ (B ++ r))) x y =
      slice B (x - (A.length + 4)) (y - (A.length + 4)) := by
  have e1 : A ++ (c ++ (B ++ r)) = (A ++ c) ++ (B ++ r) := by
    rw [List.append_assoc]
  have hlen : (A ++ c).length = A.length + 4 := by
    rw [List.length_append, h4]
  rw [e1, slice_append_of_ge (A ++ c) (B ++ r) x y (by omega) (by omega), hlen,
    slice_append_of_le B r _ _ (by omega)]

/-- Dropping exactly up to the end of the `X` component of
`A ++ (c ++ (B ++ (X ++ C)))` (with `c` of length 4) yields `C`. -/
theorem drop_decomp (A c B X C' : Bytes) (h4 : c.length = 4) :
    (A ++ (c ++ (B ++ (X ++ C')))).drop (A.length + 4 + B.length + X.length) = C' := by
  rw [drop_append_of_ge _ _ _ (by omega)]
  have e1 : A.length + 4 + B.length + X.length - A.length = 4 + B.length + X.length := by
    omega
  rw [e1, drop_append_of_ge _ _ _ (by omega)]
  have e2 : 4 + B.length + X.length - c.length = B.length + X.length := by omega
  rw [e2, drop_append_of_ge _ _ _ (by omega)]
  have e3 : B.length + X.length - B.length = X.length := by omega
  rw [e3, List.drop_left]

/-- Evaluating `get_pe_certificate_attibutes` from the header facts: the
NT header offset, the magic (32- or 64-bit), and the two directory
dwords. -/
theorem attrs_eval (d : Bytes) (nt va sz : Nat) (b32 : Bool)
    (hnt : get_nt_header_addr d = Except.ok (some nt))
    (hmag : (if b32 then is_32bits d else is_64bits d) = Except.ok true)
    (hva : unpack_dword (slice d (nt + if b32 then 0x98 else 0xa8)
      ((nt + if b32 then 0x98 else 0xa8) + 4)) = Except.ok va)
    (hsz : unpack_dword (slice d ((nt + if b32 then 0x98 else 0xa8) + 4)
      ((nt + if b32 then 0x98 else 0xa8) + 8)) = Except.ok sz) :
    get_pe_certificate_attibutes d =
      Except.ok ((nt + if b32 then 0x98 else 0xa8), va, sz) := by
  cases b32 with
  | true =>
    simp only [if_true] at hmag hva hsz ⊢
    simp only [get_pe_certificate_attibutes, hnt, hmag, hva, hsz, exbind_ok, expure,
      if_true, eq_self_iff_true]
  | false =>
    simp only [Bool.false_eq_true, if_false] at hmag hva hsz ⊢
    have hmagic : slice d (nt + 0x18) (nt + 0x1a) = [0x0b, 0x02] := by
      have h := hmag
      simp only [is_64bits, hnt, exbind_ok, expure, Except.ok.injEq,
        decide_eq_true_eq] at h
      exact h
    have h32 : is_32bits d = Except.ok false := by
      simp only [is_32bits, hnt, exbind_ok, expure, hmagic]
      rfl
    simp only [get_pe_certificate_attibutes, hnt, h32, hmag, hva, hsz, exbind_ok, expure,
      if_true, if_false, Bool.false_eq_true, eq_self_iff_true]

/-- Congruence: `get_nt_header_addr` only reads the slices at `[0,2)`, `[0x3c,0x40)`
and `[nt, nt+4)`; two buffers agreeing there parse alike. -/
theorem get_nt_header_addr_congr (d d' : Bytes) (nt : Nat)
    (h2 : slice d' 0 2 = slice d 0 2)
    (h3c : slice d' 0x3c 0x40 = slice d 0x3c 0x40)
    (hpe : slice d' nt (nt + 4) = slice d nt (nt + 4))
    (hnt : get_nt_header_addr d = Except.ok (some nt)) :
    get_nt_header_addr d' = Except.ok (some nt) := by
  unfold get_nt_header_addr at hnt ⊢
  by_cases hmz : slice d 0 2 = [0x4d, 0x5a]
  · rw [if_pos hmz] at hnt
    rw [h2, h3c, if_pos hmz]
    cases hu : unpack_dword (slice d 0x3c 0x40) with
    | error e =>
      rw [hu] at hnt
      exact absurd hnt (by simp [exbind_error])
    | ok v =>
      rw [hu] at hnt
      simp only [exbind_ok] at hnt ⊢
      by_cases hpe0 : slice d v (v + 4) = [0x50, 0x45, 0x00, 0x00]
      · rw [if_pos hpe0] at hnt
        have hv : v = nt := by
          simpa [expure] using hnt
        subst hv
        rw [hpe, if_pos hpe0]
        rfl
      · rw [if_neg hpe0] at hnt
        exact absurd hnt (by simp [expure])
  · rw [if_neg hmz] at hnt
    exact absurd hnt (by simp [expure])

/-- Congruence for `is_32bits` from agreement on the magic slice. -/
theorem is_32bits_congr (d d' : Bytes) (nt : Nat)
    (hnt : get_nt_header_addr d = Except.ok (some nt))
    (hnt' : get_nt_header_addr d' = Except.ok (some nt))
    (hm : slice d' (nt + 0x18) (nt + 0x1a) = slice d (nt + 0x18) (nt + 0x1a)) :
    is_32bits d' = is_32bits d := by
  simp only [is_32bits, hnt, hnt', exbind_ok, hm]

/-- Congruence for `is_64bits` from agreement on the magic slice. -/
theorem is_64bits_congr (d d' : Bytes) (nt : Nat)
    (hnt : get_nt_header_addr d = Except.ok (some nt))
    (hnt' : get_nt_header_addr d' = Except.ok (some nt))
    (hm : slice d' (nt + 0x18) (nt + 0x1a) = slice d (nt + 0x18) (nt + 0x1a)) :
    is_64bits d' = is_64bits d := by
  simp only [is_64bits, hnt, hnt', exbind_ok, hm]

/-- Claim C4: the digest of `calculate_pe_digest` is the hash of
`data[0 .. nt+0x58] ++ data[nt+0x5c .. tbl] ++ T` with
`tbl = nt + 0x98` (32-bit magic) or `nt + 0xa8` (64-bit magic), where
`T` skips the certificate blob exactly when both directory dwords are
nonzero, and skips nothing past the 8-byte entry otherwise. -/
theorem calculate_pe_digest_formula (ext : PEext) (a : HashAlg) (d : Bytes)
    (nt va sz : Nat) (b32 : Bool)
    (hnt : get_nt_header_addr d = Except.ok (some nt))
    (hmag : (if b32 then is_32bits d else is_64bits d) = Except.ok true)
    (hva : unpack_dword (slice d (nt + if b32 then 0x98 else 0xa8)
      ((nt + if b32 then 0x98 else 0xa8) + 4)) = Except.ok va)
    (hsz : unpack_dword (slice d ((nt + if b32 then 0x98 else 0xa8) + 4)
      ((nt + if b32 then 0x98 else 0xa8) + 8)) = Except.ok sz) :
    calculate_pe_digest ext (some a) d =
      Except.ok (ext.H a (slice d 0 (nt + 0x58) ++
        slice d (nt + 0x58 + 4) (nt + if b32 then 0x98 else 0xa8) ++
        (if va ≠ 0 ∧ sz ≠ 0 then
          slice d ((nt + if b32 then 0x98 else 0xa8) + 8) va ++ d.drop (va + sz)
        else d.drop ((nt + if b32 then 0x98 else 0xa8) + 8)))) := by
  have hattr := attrs_eval d nt va sz b32 hnt hmag hva hsz
  simp only [calculate_pe_digest, hnt, hattr, exbind_ok, expure]
  by_cases hc : va ≠ 0 ∧ sz ≠ 0
  · simp only [if_pos hc, List.append_assoc]
  · simp only [if_neg hc, List.append_assoc]

/-- Witness for C4 at the concrete buffer `SIG32` (32-bit, both directory
dwords nonzero). -/
theorem calculate_pe_digest_formula_witness :
    calculate_pe_digest extOk (some HashAlg.sha1) SIG32 = Except.ok [0xab] := by
  have h := calculate_pe_digest_formula extOk HashAlg.sha1 SIG32 0x40 0xe0 0x20 true
    rfl rfl rfl rfl
  rw [h]
  rfl

/-- Claim C3: the Authenticode digest is unchanged when the 4-byte
`CheckSum` field (here the `c4` component, replaced by `c4'`) and the
`WIN_CERTIFICATE` blob `[va, va + sz)` (here the `X` component, replaced
by `X'`) are replaced by arbitrary bytes, for any digest algorithm,
provided the rest of the buffer — in particular the 8-byte Security
directory entry, which lies inside `B` — is preserved. Well-formedness:
the buffer parses (header facts `hnt`, `hmag`, `hva`, `hsz`) and the
certificate blob lies past the directory entry (`htblva`). -/
theorem calculate_pe_digest_exclusion (ext : PEext) (a : HashAlg)
    (A c4 c4' B X X' C : Bytes) (nt tbl va sz : Nat) (b32 : Bool)
    (hA : A.length = nt + 0x58)
    (h4 : c4.length = 4) (h4' : c4'.length = 4)
    (hBva : A.length + 4 + B.length = va)
    (hX : X.length = sz) (hX' : X'.length = sz)
    (htbl : tbl = nt + if b32 then 0x98 else 0xa8)
    (htblva : tbl + 8 ≤ va)
    (hszpos : sz ≠ 0)
    (hnt : get_nt_header_addr (A ++ c4 ++ B ++ X ++ C) = Except.ok (some nt))
    (hmag : (if b32 then is_32bits (A ++ c4 ++ B ++ X ++ C)
             else is_64bits (A ++ c4 ++ B ++ X ++ C)) = Except.ok true)
    (hva : unpack_dword (slice (A ++ c4 ++ B ++ X ++ C) tbl (tbl + 4)) = Except.ok va)
    (hsz : unpack_dword (slice (A ++ c4 ++ B ++ X ++ C) (tbl + 4) (tbl + 8)) =
      Except.ok sz) :
    calculate_pe_digest ext (some a) (A ++ c4' ++ B ++ X' ++ C) =
      calculate_pe_digest ext (some a) (A ++ c4 ++ B ++ X ++ C) := by
  simp only [List.append_assoc] at hnt hmag hva hsz ⊢
  have hKtbl : A.length + 4 ≤ tbl := by
    cases b32 <;> simp only [if_true, Bool.false_eq_true, if_false] at htbl <;> omega
  have hpre : ∀ x y : Nat, y ≤ A.length →
      slice (A ++ (c4' ++ (B ++ (X' ++ C)))) x y =
        slice (A ++ (c4 ++ (B ++ (X ++ C)))) x y := by
    intro x y hy
    rw [slice_append_of_le A _ x y hy, slice_append_of_le A _ x y hy]
  have hnt' : get_nt_header_addr (A ++ (c4' ++ (B ++ (X' ++ C)))) =
      Except.ok (some nt) :=
    get_nt_header_addr_congr _ _ nt (hpre 0 2 (by omega)) (hpre 0x3c 0x40 (by omega))
      (hpre nt (nt + 4) (by omega)) hnt
  have hmag' : (if b32 then is_32bits (A ++ (c4' ++ (B ++ (X' ++ C))))
      else is_64bits (A ++ (c4' ++ (B ++ (X' ++ C))))) = Except.ok true := by
    cases b32 with
    | true =>
      simp only [if_true] at hmag ⊢
      rw [is_32bits_congr _ _ nt hnt hnt' (hpre _ _ (by omega))]
      exact hmag
    | false =>
      simp only [Bool.false_eq_true, if_false] at hmag ⊢
      rw [is_64bits_congr _ _ nt hnt hnt' (hpre _ _ (by omega))]
      exact hmag
  have p2 : slice (A ++ (c4' ++ (B ++ (X' ++ C)))) tbl (tbl + 4) =
      slice (A ++ (c4 ++ (B ++ (X ++ C)))) tbl (tbl + 4) := by
    rw [slice_mid A c4' B _ _ _ h4' hKtbl (by omega) (by omega),
      slice_mid A c4 B _ _ _ h4 hKtbl (by omega) (by omega)]
  have p3 : slice (A ++ (c4' ++ (B ++ (X' ++ C)))) (tbl + 4) (tbl + 8) =
      slice (A ++ (c4 ++ (B ++ (X ++ C)))) (tbl + 4) (tbl + 8) := by
    rw [slice_mid A c4' B _ _ _ h4' (by omega) (by omega) (by omega),
      slice_mid A c4 B _ _ _ h4 (by omega) (by omega) (by omega)]
  have hva' : unpack_dword (slice (A ++ (c4' ++ (B ++ (X' ++ C)))) tbl (tbl + 4)) =
      Except.ok va := by
    rw [p2]; exact hva
  have hsz' : unpack_dword (slice (A ++ (c4' ++ (B ++ (X' ++ C)))) (tbl + 4) (tbl + 8)) =
      Except.ok sz := by
    rw [p3]; exact hsz
  have hvaF : unpack_dword (slice (A ++ (c4 ++ (B ++ (X ++ C))))
      (nt + if b32 then 0x98 else 0xa8) ((nt + if b32 then 0x98 else 0xa8) + 4)) =
      Except.ok va := by
    rw [← htbl]; exact hva
  have hszF : unpack_dword (slice (A ++ (c4 ++ (B ++ (X ++ C))))
      ((nt + if b32 then 0x98 else 0xa8) + 4) ((nt + if b32 then 0x98 else 0xa8) + 8)) =
      Except.ok sz := by
    rw [← htbl]; exact hsz
  have hvaF' : unpack_dword (slice (A ++ (c4' ++ (B ++ (X' ++ C))))
      (nt + if b32 then 0x98 else 0xa8) ((nt + if b32 then 0x98 else 0xa8) + 4)) =
      Except.ok va := by
    rw [← htbl]; exact hva'
  have hszF' : unpack_dword (slice (A ++ (c4' ++ (B ++ (X' ++ C))))
      ((nt + if b32 then 0x98 else 0xa8) + 4) ((nt + if b32 then 0x98 else 0xa8) + 8)) =
      Except.ok sz := by
    rw [← htbl]; exact hsz'
  have F := calculate_pe_digest_formula ext a (A ++ (c4 ++ (B ++ (X ++ C))))
    nt va sz b32 hnt hmag hvaF hszF
  have F' := calculate_pe_digest_formula ext a (A ++ (c4' ++ (B ++ (X' ++ C))))
    nt va sz b32 hnt' hmag' hvaF' hszF'
  rw [F, F', ← htbl]
  have hcond : va ≠ 0 ∧ sz ≠ 0 := ⟨by omega, hszpos⟩
  rw [if_pos hcond, if_pos hcond]
  have p1 : slice (A ++ (c4' ++ (B ++ (X' ++ C)))) 0 (nt + 0x58) =
      slice (A ++ (c4 ++ (B ++ (X ++ C)))) 0 (nt + 0x58) :=
    hpre 0 (nt + 0x58) (by omega)
  have p2b : slice (A ++ (c4' ++ (B ++ (X' ++ C)))) (nt + 0x58 + 4) tbl =
      slice (A ++ (c4 ++ (B ++ (X ++ C)))) (nt + 0x58 + 4) tbl := by
    rw [slice_mid A c4' B _ _ _ h4' (by omega) (by omega) (by omega),
      slice_mid A c4 B _ _ _ h4 (by omega) (by omega) (by omega)]
  have p3b : slice (A ++ (c4' ++ (B ++ (X' ++ C)))) (tbl + 8) va =
      slice (A ++ (c4 ++ (B ++ (X ++ C)))) (tbl + 8) va := by
    rw [slice_mid A c4' B _ _ _ h4' (by omega) (by omega) (by omega),
      slice_mid A c4 B _ _ _ h4 (by omega) (by omega) (by omega)]
  have p4a : (A ++ (c4' ++ (B ++ (X' ++ C)))).drop (va + sz) = C := by
    have e : va + sz = A.length + 4 + B.length + X'.length := by omega
    rw [e]
    exact drop_decomp A c4' B X' C h4'
  have p4b : (A ++ (c4 ++ (B ++ (X ++ C)))).drop (va + sz) = C := by
    have e : va + sz = A.length + 4 + B.length + X.length := by omega
    rw [e]
    exact drop_decomp A c4 B X C h4
  rw [p1, p2b, p3b, p4a, p4b]

/-- Witness for C3: replacing the `CheckSum` bytes `[1,2,3,4]` by
`[9,9,9,9]` and the 32-byte certificate blob by zeros leaves the digest
of the assembled test image unchanged. -/
theorem calculate_pe_digest_exclusion_witness :
    calculate_pe_digest extOk (some HashAlg.sha1)
        (hdrA ++ [9, 9, 9, 9] ++ midB ++ zBytes 32 ++ []) =
      calculate_pe_digest extOk (some HashAlg.sha1)
        (hdrA ++ [1, 2, 3, 4] ++ midB ++ certBlobSha1 ++ []) :=
  calculate_pe_digest_exclusion extOk HashAlg.sha1 hdrA [1, 2, 3, 4] [9, 9, 9, 9]
    midB certBlobSha1 (zBytes 32) [] 0x40 0xd8 0xe0 0x20 true rfl rfl rfl rfl rfl rfl
    rfl (by decide) (by decide) rfl rfl rfl rfl
/-! ### Page assembler lemmas (towards claim C9) -/

theorem bio_write_length (st : BIO) (r : Bytes) :
    (bio_write st r).buf.length = max st.buf.length (st.pos + r.length) := by
  simp only [bio_write, zBytes, List.length_append, List.length_take,
    List.length_replicate, List.length_drop]
  omega

theorem bio_write_getElem (st : BIO) (r : Bytes) (i : Nat) :
    (bio_write st r).buf[i]? =
      if i < st.pos then
        (if i < st.buf.length then st.buf[i]? else some 0)
      else if i < st.pos + r.length then r[i - st.pos]?
      else st.buf[i]? := by
  obtain ⟨buf, p⟩ := st
  simp only [bio_write]
  have hTZ : (buf.take p ++ zBytes (p - buf.length)).length = p := by
    simp only [List.length_append, List.length_take, zBytes, List.length_replicate]
    omega
  by_cases h1 : i < p
  · rw [List.getElem?_append_left (by
      simp only [List.length_append, hTZ]; omega : i < ((buf.take p ++
        zBytes (p - buf.length)) ++ r).length)]
    rw [List.getElem?_append_left (by rw [hTZ]; exact h1)]
    by_cases h2 : i < buf.length
    · rw [List.getElem?_append_left (by rw [List.length_take]; omega :
        i < (buf.take p).length)]
      rw [List.getElem?_take_of_lt h1, if_pos h1, if_pos h2]
    · rw [List.getElem?_append_right (by rw [List.length_take]; omega :
        (buf.take p).length ≤ i)]
      rw [List.length_take]
      have hmin : min p buf.length = buf.length := by omega
      rw [hmin]
      simp only [zBytes]
      rw [List.getElem?_replicate_of_lt (by omega), if_pos h1, if_neg h2]
  · by_cases h2 : i < p + r.length
    · rw [List.getElem?_append_left (by
        simp only [List.length_append, hTZ]; omega : i < ((buf.take p ++
          zBytes (p - buf.length)) ++ r).length)]
      rw [List.getElem?_append_right (by rw [hTZ]; omega :
        (buf.take p ++ zBytes (p - buf.length)).length ≤ i)]
      rw [hTZ, if_neg h1, if_pos h2]
    · rw [List.getElem?_append_right (by
        simp only [List.length_append, hTZ]; omega : ((buf.take p ++
          zBytes (p - buf.length)) ++ r).length ≤ i)]
      simp only [List.length_append, hTZ]
      rw [List.getElem?_drop]
      have e : p + r.length + (i - (p + r.length)) = i := by omega
      rw [e, if_neg h1, if_neg h2]

theorem rfmStep_length_ge (memRead : Nat → Nat → Option Bytes) (st : BIO) (sp : PageSpan) :
    st.buf.length ≤ (rfmStep memRead st sp).buf.length := by
  cases hm : memRead (sp.memOff % 4294967296) sp.count with
  | none =>
    simp only [rfmStep, hm]
    exact Nat.le_refl _
  | some r =>
    by_cases hr : r = []
    · simp only [rfmStep, hm, if_pos hr]
      exact Nat.le_refl _
    · simp only [rfmStep, hm, if_neg hr]
      rw [bio_write_length]
      dsimp only
      omega

theorem rfmLoop_length_mono (memRead : Nat → Nat → Option Bytes) :
    ∀ (spans : List PageSpan) (st : BIO),
      st.buf.length ≤ (rfmLoop memRead st spans).buf.length := by
  intro spans
  induction spans with
  | nil => intro st; exact Nat.le_refl _
  | cons sp rest ih =>
    intro st
    exact Nat.le_trans (rfmStep_length_ge memRead st sp) (ih (rfmStep memRead st sp))

theorem rfmLoop_covered_lt (memRead : Nat → Nat → Option Bytes) :
    ∀ (spans : List PageSpan) (st : BIO) (i : Nat),
      coveredBySuccess memRead spans i = true →
      i < (rfmLoop memRead st spans).buf.length := by
  intro spans
  induction spans with
  | nil =>
    intro st i h
    simp [coveredBySuccess] at h
  | cons sp rest ih =>
    intro st i h
    simp only [coveredBySuccess, List.any_cons, Bool.or_eq_true] at h
    rw [rfmLoop]
    cases h with
    | inl hsp =>
      simp only [Bool.and_eq_true, decide_eq_true_eq] at hsp
      obtain ⟨hlo, hhi⟩ := hsp
      have hstep : i < (rfmStep memRead st sp).buf.length := by
        cases hm : memRead (sp.memOff % 4294967296) sp.count with
        | none =>
          simp only [spanSuccessLen, hm] at hhi
          omega
        | some r =>
          simp only [spanSuccessLen, hm] at hhi
          by_cases hr : r = []
          · subst hr
            simp only [List.length_nil] at hhi
            omega
          · simp only [rfmStep, hm, if_neg hr]
            rw [bio_write_length]
            dsimp only
            omega
      exact Nat.lt_of_lt_of_le hstep (rfmLoop_length_mono memRead rest _)
    | inr hrest => exact ih (rfmStep memRead st sp) i hrest

theorem rfmLoop_uncovered (memRead : Nat → Nat → Option Bytes) :
    ∀ (spans : List PageSpan) (st : BIO) (i : Nat),
      i < (rfmLoop memRead st spans).buf.length →
      coveredBySuccess memRead spans i = false →
      (rfmLoop memRead st spans).buf[i]? =
        if i < st.buf.length then st.buf[i]? else some 0 := by
  intro spans
  induction spans with
  | nil =>
    intro st i hi _
    simp only [rfmLoop] at hi ⊢
    rw [if_pos hi]
  | cons sp rest ih =>
    intro st i hi hcov
    simp only [coveredBySuccess, List.any_cons] at hcov
    obtain ⟨hsp, hrest⟩ := Bool.or_eq_false_iff.mp hcov
    simp only [Bool.and_eq_false_iff, decide_eq_false_iff_not, Nat.not_le,
      Nat.not_lt] at hsp
    rw [rfmLoop] at hi ⊢
    rw [ih (rfmStep memRead st sp) i hi hrest]
    cases hm : memRead (sp.memOff % 4294967296) sp.count with
    | none => simp only [rfmStep, hm]
    | some r =>
      simp only [spanSuccessLen, hm] at hsp
      by_cases hr : r = []
      · simp only [rfmStep, hm, if_pos hr]
      · simp only [rfmStep, hm, if_neg hr]
        rw [bio_write_length, bio_write_getElem]
        dsimp only
        have hE : i < sp.fileOff ∨ sp.fileOff + r.length ≤ i := by
          cases hsp with
          | inl h => exact Or.inl (by omega)
          | inr h => exact Or.inr (by omega)
        split_ifs <;> first | rfl | omega

/-- Claim C9: in the buffer assembled by `read_file_memory`, every position
covered by a successful span read lies inside the buffer, and every
in-buffer position not covered by any successful read — a hole between
spans or the extent of a failed read — holds the byte 0. -/
theorem read_file_memory_zero_fill (memRead : Nat → Nat → Option Bytes)
    (present : List PageSpan) (i : Nat) :
    (coveredBySuccess memRead present i = true →
      i < (read_file_memory memRead present).length) ∧
    (i < (read_file_memory memRead present).length →
      coveredBySuccess memRead present i = false →
      (read_file_memory memRead present)[i]? = some 0) := by
  constructor
  · intro h
    exact rfmLoop_covered_lt memRead present ⟨[], 0⟩ i h
  · intro hi hcov
    have h := rfmLoop_uncovered memRead present ⟨[], 0⟩ i hi hcov
    simpa using h

/-- Witness for C9: position 1 (inside the failed span's extent) is zero,
and position 5 (covered by the successful span) is inside the buffer. -/
theorem read_file_memory_zero_fill_witness :
    (read_file_memory w9read w9spans)[1]? = some 0 ∧
      5 < (read_file_memory w9read w9spans).length := by
  have h1 := read_file_memory_zero_fill w9read w9spans 1
  have h5 := read_file_memory_zero_fill w9read w9spans 5
  exact ⟨h1.2 (by decide) (by rfl), h5.1 (by rfl)⟩

/-! ### Claim C2: unparseable signature on the two full-residency paths -/

/-- Claim C2 (code_bug evidence): at the same fully resident buffer with a
nonzero Security directory whose blob does not match the digest pattern,
`verify_pe` (the `ImageSectionObject` path) returns `PARTIAL_CERTIFICATE`,
but `validate_data_section` calls `calculate_pe_digest(None, …)` and
raises `TypeError` instead of returning `PARTIAL_CERTIFICATE`. -/
theorem unparseable_cert_data_path_bug :
    verify_pe extOk BADCERT32 = Except.ok (.code .PARTIAL_CERTIFICATE) ∧
      validate_data_section extOk BADCERT32 = Except.error PyErr.typeError :=
  ⟨rfl, rfl⟩

/-! ### Claim C7: partial ImageSectionObject -/

/-- Counterexample for C7: a partially resident `ImageSectionObject` whose
PE has a zero Security directory yields `PARTIAL_CONTENT_NOT_SIGNED`, not
`CONTENT_SIGNED_NOT_VERIFIED`, so the verdict is not independent of the
cert structure. -/
theorem partial_image_no_cert_counterexample :
    validate_partial_file extOk mrNoCert (some foNoCert) =
        Except.ok (.code .PARTIAL_CONTENT_NOT_SIGNED) ∧
      VResult.code .PARTIAL_CONTENT_NOT_SIGNED ≠
        VResult.code .CONTENT_SIGNED_NOT_VERIFIED :=
  ⟨rfl, by decide⟩

/-- Claim C7 as amended: a partially resident `ImageSectionObject` whose
reconstructed bytes parse as a PE returns `CONTENT_SIGNED_NOT_VERIFIED`
whenever the PE's Security directory entry is nonzero (`has_cert`),
regardless of whether the blob bytes are resident. -/
theorem validate_partial_image_with_cert (ext : PEext)
    (memRead : Nat → Nat → Option Bytes) (fo : FileObject)
    (hk : fo.kind = .image)
    (hp : parsePE_ok (read_file_memory memRead fo.present) = Except.ok ())
    (hc : has_cert (read_file_memory memRead fo.present) = Except.ok true) :
    validate_partial_file ext memRead (some fo) =
      Except.ok (.code .CONTENT_SIGNED_NOT_VERIFIED) := by
  have hb : partialBody ext fo (read_file_memory memRead fo.present) =
      Except.ok (.code .CONTENT_SIGNED_NOT_VERIFIED) := by
    simp only [partialBody, hp, hc, hk, exbind_ok, if_true, expure]
  unfold validate_partial_file
  dsimp only
  rw [hb]
  rfl

/-- Witness for the amended C7 at a concrete cert-bearing partial image. -/
theorem validate_partial_image_with_cert_witness :
    validate_partial_file extOk mrSig (some foSig) =
      Except.ok (.code .CONTENT_SIGNED_NOT_VERIFIED) :=
  validate_partial_image_with_cert extOk mrSig foSig rfl rfl rfl

/-! ### Claim C8: the Windows-path catalog heuristic -/

/-- Claim C8 (code_bug evidence): under Python 2 regex semantics the
pattern of src line 741 can never match a real
`\Device\HarddiskVolumeN\Windows` name (its `\D` consumes the backslash
and then `evice` fails against `Device`), so the partial path returns
`PARTIAL_CONTENT_NOT_SIGNED` where the spec expects
`PARTIAL_CONTENT_MAYBE_CATALOG_SIGNED`. -/
theorem windows_prefix_heuristic_bug :
    windows_path_match "\\Device\\HarddiskVolume1\\Windows\\System32\\calc.exe" = false ∧
      validate_partial_file extOk mrNoCert (some foWin) =
        Except.ok (.code .PARTIAL_CONTENT_NOT_SIGNED) :=
  ⟨rfl, rfl⟩

/-! ### Claim C10: totality of `get_digest_from_signature` -/

/-- Counterexample for C10: a blob whose digest pattern matches with the
unrecognised OID `2b 0e 03 02 1b` makes the function fall through and
return the bare `None` (not the `(None, 0x00)` pair and not an
`(algorithm, digest)` pair). -/
theorem get_digest_unknown_oid_counterexample :
    certSearch unknownOidBlob = some ([0x2b, 0x0e, 0x03, 0x02, 0x1b], 1, 15) ∧
      get_digest_from_signature unknownOidBlob = SigDigestResult.bareNone ∧
      SigDigestResult.bareNone ≠ SigDigestResult.noMatch ∧
      SigDigestResult.bareNone ≠
        SigDigestResult.found HashAlg.sha1 (slice unknownOidBlob 15 16) :=
  ⟨rfl, rfl, by decide, by decide⟩

/-- Claim C10 as amended: the scanner returns the `(None, 0x00)` pair when
the pattern does not match, an `(algorithm, digest)` pair when the OID is
one of the three recognised encodings, and the bare `None` (breaking the
caller's tuple unpacking) when the pattern matches with any other OID. -/
theorem get_digest_from_signature_cases (sig : Bytes) :
    (certSearch sig = none → get_digest_from_signature sig = .noMatch) ∧
    (∀ oid hs e, certSearch sig = some (oid, hs, e) →
      ((oid = OID_md5 →
          get_digest_from_signature sig = .found .md5 (slice sig e (e + hs))) ∧
       (oid = OID_sha1 →
          get_digest_from_signature sig = .found .sha1 (slice sig e (e + hs))) ∧
       (oid = OID_sha256 →
          get_digest_from_signature sig = .found .sha256 (slice sig e (e + hs))) ∧
       (oid ≠ OID_md5 → oid ≠ OID_sha1 → oid ≠ OID_sha256 →
          get_digest_from_signature sig = .bareNone))) := by
  constructor
  · intro h
    unfold get_digest_from_signature
    rw [h]
  · intro oid hs e h
    refine ⟨?_, ?_, ?_, ?_⟩
    · intro h1
      subst h1
      unfold get_digest_from_signature
      rw [h]
      dsimp only
      rw [if_pos rfl]
    · intro h1
      subst h1
      unfold get_digest_from_signature
      rw [h]
      dsimp only
      rw [if_neg (by decide), if_pos rfl]
    · intro h1
      subst h1
      unfold get_digest_from_signature
      rw [h]
      dsimp only
      rw [if_neg (by decide), if_neg (by decide), if_pos rfl]
    · intro h1 h2 h3
      unfold get_digest_from_signature
      rw [h]
      dsimp only
      rw [if_neg h1, if_neg h2, if_neg h3]

/-- Witness for the amended C10 at the sha1-signed test blob. -/
theorem get_digest_from_signature_cases_witness :
    get_digest_from_signature certBlobSha1 =
      SigDigestResult.found HashAlg.sha1 (slice certBlobSha1 15 16) :=
  ((get_digest_from_signature_cases certBlobSha1).2 OID_sha1 1 15 rfl).2.1 rfl

/-! ### Claim C6: the orchestrator boundary -/

/-- Helper: a successful `calcLoop` run yields exactly one triple per
module. -/
theorem calcLoop_length (ext : PEext) (memRead : Nat → Nat → Option Bytes)
    (freq : List (String × List Nat)) (getFO : String → Bool × Option FileObject)
    (lastTask : Option TaskInfo) :
    ∀ (mods : List ModuleEntry) (cache : List (String × VResult))
      (l : List (String × Nat × VResult)),
      calcLoop ext memRead freq getFO lastTask cache mods = Except.ok l →
      l.length = mods.length := by
  intro mods
  induction mods with
  | nil =>
    intro cache l h
    simp only [calcLoop, expure, Except.ok.injEq] at h
    subst h
    rfl
  | cons m rest ih =>
    intro cache l h
    rw [calcLoop] at h
    cases h1 : calcOne ext memRead freq getFO lastTask cache m with
    | error e =>
      rw [h1] at h
      exact absurd h (by simp [exbind_error])
    | ok tc =>
      rw [h1] at h
      obtain ⟨t, cache'⟩ := tc
      simp only [exbind_ok] at h
      cases h2 : calcLoop ext memRead freq getFO lastTask cache' rest with
      | error e =>
        rw [h2] at h
        exact absurd h (by simp [exbind_error])
      | ok ts =>
        rw [h2] at h
        simp only [exbind_ok, expure, Except.ok.injEq] at h
        subst h
        simp only [List.length_cons, ih cache' ts h2]

/-- Claim C6 as amended: when no exception escapes, `calculate` yields
exactly one `(name, pid, result)` triple per enumerated module; but an
exception raised while validating a module does escape `calculate` (its
`try` block has only a `finally`), refuting the no-propagation half. -/
theorem calculate_one_triple_per_module (ext : PEext)
    (memRead : Nat → Nat → Option Bytes) (freq : List (String × List Nat))
    (getFO : String → Bool × Option FileObject) (lastTask : Option TaskInfo)
    (mods : List ModuleEntry) (l : List (String × Nat × VResult))
    (h : calculate ext memRead freq getFO lastTask mods = Except.ok l) :
    l.length = mods.length :=
  calcLoop_length ext memRead freq getFO lastTask mods [] l h

/-- Counterexample for C6: validating a fully resident module whose
reconstructed bytes are not a PE raises `PEFormatError` inside
`validate_data_section`, and the exception propagates out of
`calculate` to its consumer. -/
theorem calculate_exception_escapes_counterexample :
    calculate extOk mrJunk [] gfoJunk (some ⟨"t", false⟩) [⟨"p", "n", 1⟩] =
      Except.error PyErr.peFormatError :=
  rfl

/-- Witness for the amended C6: a one-module run that completes yields
exactly one triple. -/
theorem calculate_one_triple_per_module_witness :
    ([("last", 7, VResult.code .ALREADY_TERMINATED)] :
        List (String × Nat × VResult)).length =
      ([⟨"", "n", 7⟩] : List ModuleEntry).length :=
  calculate_one_triple_per_module extOk mrJunk [] gfoJunk (some ⟨"last", true⟩)
    [⟨"", "n", 7⟩] [("last", 7, VResult.code .ALREADY_TERMINATED)] rfl

/-! ### Claim C1: result range of `verify_pe` and the rebase loop -/

/-- The catalog branch shared by both arms of `verify_pe` can only return
`CATALOG_SIGNED` or `NOT_SIGNED`. -/
theorem catalog_branch_range (ext : PEext) (d : Bytes) (r : VResult)
    (h : (do
        let digest ← calculate_pe_digest ext (some .sha1) d
        if ext.catalogHas digest then pure (VResult.code .CATALOG_SIGNED)
        else pure (VResult.code .NOT_SIGNED)) = Except.ok r) :
    r = .code .CATALOG_SIGNED ∨ r = .code .NOT_SIGNED := by
  cases hd : calculate_pe_digest ext (some .sha1) d with
  | error e =>
    rw [hd] at h
    exact absurd h (by simp [exbind_error])
  | ok dg =>
    rw [hd] at h
    simp only [exbind_ok] at h
    by_cases hcat : ext.catalogHas dg
    · rw [if_pos hcat] at h
      simp only [expure, Except.ok.injEq] at h
      exact Or.inl h.symm
    · rw [if_neg hcat] at h
      simp only [expure, Except.ok.injEq] at h
      exact Or.inr h.symm

/-- Every normal return of `verify_pe` is one of `PARTIAL_CERTIFICATE`,
`AUTHENTICODE_SIGNATURE_MISMATCH`, `CATALOG_SIGNED`, `NOT_SIGNED`, or a
verifier verdict string. -/
theorem verify_pe_range (ext : PEext) (d : Bytes) (r : VResult)
    (h : verify_pe ext d = Except.ok r) :
    r = .code .PARTIAL_CERTIFICATE ∨ r = .code .AUTHENTICODE_SIGNATURE_MISMATCH ∨
      r = .code .CATALOG_SIGNED ∨ r = .code .NOT_SIGNED ∨ ∃ s, r = .str s := by
  unfold verify_pe at h
  cases hc : extract_cert d with
  | error e =>
    rw [hc] at h
    exact absurd h (by simp [exbind_error])
  | ok cert? =>
    rw [hc] at h
    simp only [exbind_ok] at h
    cases cert? with
    | none =>
      rcases catalog_branch_range ext d r h with h1 | h1
      · exact Or.inr (Or.inr (Or.inl h1))
      · exact Or.inr (Or.inr (Or.inr (Or.inl h1)))
    | some cert =>
      dsimp only at h
      by_cases hne : cert ≠ []
      · rw [if_pos hne] at h
        cases hg : get_digest_from_signature cert with
        | bareNone =>
          rw [hg] at h
          exact absurd h (by simp [throw, throwThe, MonadExceptOf.throw])
        | noMatch =>
          rw [hg] at h
          simp only [expure, Except.ok.injEq] at h
          exact Or.inl h.symm
        | found alg hf =>
          rw [hg] at h
          dsimp only at h
          cases hd : calculate_pe_digest ext (some alg) d with
          | error e =>
            rw [hd] at h
            exact absurd h (by simp [exbind_error])
          | ok dg =>
            rw [hd] at h
            simp only [exbind_ok] at h
            by_cases heq : hf = dg
            · rw [if_pos heq] at h
              simp only [expure, Except.ok.injEq] at h
              exact Or.inr (Or.inr (Or.inr (Or.inr ⟨ext.verdict cert, h.symm⟩)))
            · rw [if_neg heq] at h
              simp only [expure, Except.ok.injEq] at h
              exact Or.inr (Or.inl h.symm)
      · rw [if_neg hne] at h
        rcases catalog_branch_range ext d r h with h1 | h1
        · exact Or.inr (Or.inr (Or.inl h1))
        · exact Or.inr (Or.inr (Or.inr (Or.inl h1)))

/-- A rebase-loop attempt that returns a verdict got it from `verify_pe` on
the rebased buffer. -/
theorem attempt_ok_some (ext : PEext) (content : Bytes) (b : Nat) (r : VResult)
    (h : attempt ext content b = Except.ok (some r)) :
    ∃ nc, verify_pe ext nc = Except.ok r := by
  unfold attempt at h
  cases hp : parsePE_ok content with
  | error e =>
    rw [hp] at h
    exact absurd h (by simp [exbind_error])
  | ok u =>
    rw [hp] at h
    simp only [exbind_ok] at h
    cases hrel : ext.relocate content b with
    | error e =>
      rw [hrel] at h
      exact absurd h (by simp [exbind_error])
    | ok rc =>
      rw [hrel] at h
      simp only [exbind_ok] at h
      cases hset : set_imagebase b rc with
      | error e =>
        rw [hset] at h
        exact absurd h (by simp [exbind_error])
      | ok nc? =>
        rw [hset] at h
        simp only [exbind_ok] at h
        cases nc? with
        | none =>
          exact absurd h (by simp [throw, throwThe, MonadExceptOf.throw])
        | some nc =>
          dsimp only at h
          cases hp2 : parsePE_ok nc with
          | error e =>
            rw [hp2] at h
            exact absurd h (by simp [exbind_error])
          | ok u2 =>
            rw [hp2] at h
            simp only [exbind_ok] at h
            by_cases hck : ext.checksumOk nc = true
            · rw [if_pos hck] at h
              cases hv : verify_pe ext nc with
              | error e =>
                rw [hv] at h
                exact absurd h (by simp [exbind_error])
              | ok rv =>
                rw [hv] at h
                simp only [exbind_ok, expure, Except.ok.injEq, Option.some.injEq] at h
                exact ⟨nc, by rw [hv, h]⟩
            · rw [if_neg hck] at h
              exact absurd h (by simp [expure])

/-- Every normal return of the rebase loop is either `PE_REBUILT_FAILED` or
a `verify_pe` verdict on some rebased buffer. -/
theorem rebaseLoop_range (ext : PEext) (content : Bytes) (is32 : Bool) :
    ∀ (cands : List Nat) (r : VResult),
      rebaseLoop ext content is32 cands = Except.ok r →
      r = .code .PE_REBUILT_FAILED ∨ ∃ nc, verify_pe ext nc = Except.ok r := by
  intro cands
  induction cands with
  | nil =>
    intro r h
    simp only [rebaseLoop, expure, Except.ok.injEq] at h
    exact Or.inl h.symm
  | cons b rest ih =>
    intro r h
    rw [rebaseLoop] at h
    by_cases hskip : (is32 && decide (0xffffffff < b)) = true
    · rw [if_pos hskip] at h
      exact ih r h
    · rw [if_neg hskip] at h
      cases ha : attempt ext content b with
      | ok o =>
        cases o with
        | some rv =>
          rw [ha] at h
          dsimp only at h
          simp only [expure, Except.ok.injEq] at h
          exact Or.inr (h ▸ attempt_ok_some ext content b rv ha)
        | none =>
          rw [ha] at h
          dsimp only at h
          exact ih r h
      | error e =>
        rw [ha] at h
        cases e <;> dsimp only at h <;>
          first
            | exact ih r h
            | exact absurd h (by simp)

/-- Claim C1 as amended: the rebase path reaches the same `verify_pe` as the
data path, so a digest mismatch yields the plain
`AUTHENTICODE_SIGNATURE_MISMATCH` and a catalog miss the plain
`NOT_SIGNED`; the `…_OR_INCORRECT_IMAGEBASE` codes are never returned by
`validate_image_section`. -/
theorem validate_image_section_plain_codes (ext : PEext)
    (freq : List (String × List Nat)) (content : Bytes) (ftype : String)
    (r : VResult)
    (h : validate_image_section ext freq content ftype = Except.ok r) :
    r ≠ VResult.code .AUTHENTICODE_SIGNATURE_MISMATCH_OR_INCORRECT_IMAGEBASE ∧
      r ≠ VResult.code .NOT_SIGNED_OR_INCORRECT_IMAGEBASE := by
  have hrange : r = .code .PE_REBUILT_FAILED ∨ r = .code .PARTIAL_CERTIFICATE ∨
      r = .code .AUTHENTICODE_SIGNATURE_MISMATCH ∨ r = .code .CATALOG_SIGNED ∨
      r = .code .NOT_SIGNED ∨ ∃ s, r = .str s := by
    unfold validate_image_section at h
    cases hpad : delete_padding ext content with
    | error e =>
      rw [hpad] at h
      exact absurd h (by simp [exbind_error])
    | ok c' =>
      rw [hpad] at h
      simp only [exbind_ok] at h
      cases hp : parsePE_ok c' with
      | error e =>
        rw [hp] at h
        exact absurd h (by simp [exbind_error])
      | ok u =>
        rw [hp] at h
        simp only [exbind_ok] at h
        cases h32 : is_32bits c' with
        | error e =>
          rw [h32] at h
          exact absurd h (by simp [exbind_error])
        | ok b32v =>
          rw [h32] at h
          simp only [exbind_ok] at h
          by_cases hck : ext.checksumOk c' = true
          · rw [if_pos hck] at h
            rcases verify_pe_range ext c' r h with h1 | h1 | h1 | h1 | h1
            · exact Or.inr (Or.inl h1)
            · exact Or.inr (Or.inr (Or.inl h1))
            · exact Or.inr (Or.inr (Or.inr (Or.inl h1)))
            · exact Or.inr (Or.inr (Or.inr (Or.inr (Or.inl h1))))
            · exact Or.inr (Or.inr (Or.inr (Or.inr (Or.inr h1))))
          · rw [if_neg hck] at h
            cases hf : lookupFreq freq ftype with
            | error e =>
              rw [hf] at h
              exact absurd h (by simp [exbind_error])
            | ok cands =>
              rw [hf] at h
              simp only [exbind_ok] at h
              rcases rebaseLoop_range ext c' b32v cands r h with h1 | ⟨nc, h1⟩
              · exact Or.inl h1
              · rcases verify_pe_range ext nc r h1 with h2 | h2 | h2 | h2 | h2
                · exact Or.inr (Or.inl h2)
                · exact Or.inr (Or.inr (Or.inl h2))
                · exact Or.inr (Or.inr (Or.inr (Or.inl h2)))
                · exact Or.inr (Or.inr (Or.inr (Or.inr (Or.inl h2))))
                · exact Or.inr (Or.inr (Or.inr (Or.inr (Or.inr h2))))
  rcases hrange with h1 | h1 | h1 | h1 | h1 | ⟨s, h1⟩ <;> subst h1 <;>
    exact ⟨by simp, by simp⟩

/-- Witness for the amended C1, discharging its run hypothesis on the
concrete rebase-path mismatch run. -/
theorem validate_image_section_plain_codes_witness :
    VResult.code ReturnCode.AUTHENTICODE_SIGNATURE_MISMATCH ≠
        VResult.code ReturnCode.AUTHENTICODE_SIGNATURE_MISMATCH_OR_INCORRECT_IMAGEBASE ∧
      VResult.code ReturnCode.AUTHENTICODE_SIGNATURE_MISMATCH ≠
        VResult.code ReturnCode.NOT_SIGNED_OR_INCORRECT_IMAGEBASE :=
  validate_image_section_plain_codes extReb [("exe", [0x400000])] SIG32 "exe"
    (VResult.code ReturnCode.AUTHENTICODE_SIGNATURE_MISMATCH) rfl

/-- Counterexample for C1: a module that fails `verify_checksum` at its
original base, rebases successfully to the single candidate `0x400000`,
and then hits a digest mismatch returns the plain
`AUTHENTICODE_SIGNATURE_MISMATCH`, not the
`…_OR_INCORRECT_IMAGEBASE` variant the claim names. -/
theorem rebase_path_mismatch_counterexample :
    extReb.checksumOk SIG32 = false ∧
      validate_image_section extReb [("exe", [0x400000])] SIG32 "exe" =
        Except.ok (.code .AUTHENTICODE_SIGNATURE_MISMATCH) ∧
      VResult.code ReturnCode.AUTHENTICODE_SIGNATURE_MISMATCH ≠
        VResult.code ReturnCode.AUTHENTICODE_SIGNATURE_MISMATCH_OR_INCORRECT_IMAGEBASE :=
  ⟨rfl, rfl, by decide⟩

/-! ### Claim C5: the rebase loop behaviour -/

/-- Claim C5: when the buffer fails `verify_checksum`, validation runs the
candidate loop on `FrequentBaseTable[extension]` in list order; a
candidate above `0xffffffff` is skipped for a 32-bit image; a caught
relocation error (`AttributeError`, `struct.error`) or a still-failing
checksum advances to the next candidate; the first candidate whose
rebased buffer passes `verify_checksum` continues to `verify_pe`; and an
exhausted list returns `PE_REBUILT_FAILED`. -/
theorem validate_image_rebase_behavior (ext : PEext)
    (freq : List (String × List Nat)) (content c' : Bytes) (ftype : String)
    (b32v : Bool) (cands : List Nat)
    (hpad : delete_padding ext content = Except.ok c')
    (hparse : parsePE_ok c' = Except.ok ())
    (h32 : is_32bits c' = Except.ok b32v)
    (hck : ext.checksumOk c' = false)
    (hfreq : lookupFreq freq ftype = Except.ok cands) :
    validate_image_section ext freq content ftype = rebaseLoop ext c' b32v cands ∧
    (∀ b rest, b32v = true → 0xffffffff < b →
      rebaseLoop ext c' b32v (b :: rest) = rebaseLoop ext c' b32v rest) ∧
    (∀ b rest, (b32v = true → b ≤ 0xffffffff) →
      (attempt ext c' b = Except.error .attributeError ∨
        attempt ext c' b = Except.error .structError ∨
        attempt ext c' b = Except.ok none) →
      rebaseLoop ext c' b32v (b :: rest) = rebaseLoop ext c' b32v rest) ∧
    (∀ b rest rc nc rv, (b32v = true → b ≤ 0xffffffff) →
      ext.relocate c' b = Except.ok rc →
      set_imagebase b rc = Except.ok (some nc) →
      parsePE_ok nc = Except.ok () →
      ext.checksumOk nc = true →
      verify_pe ext nc = Except.ok rv →
      rebaseLoop ext c' b32v (b :: rest) = Except.ok rv) ∧
    rebaseLoop ext c' b32v [] = Except.ok (.code .PE_REBUILT_FAILED) := by
  refine ⟨?_, ?_, ?_, ?_, rfl⟩
  · simp only [validate_image_section, hpad, hparse, h32, hck, hfreq, exbind_ok,
      Bool.false_eq_true, if_false]
  · intro b rest hb hgt
    rw [rebaseLoop, if_pos (by simp [hb, hgt])]
  · intro b rest hb hadv
    have hskip : (b32v && decide (0xffffffff < b)) = false := by
      cases b32v with
      | false => rfl
      | true => simp [Nat.not_lt.mpr (hb rfl)]
    rw [rebaseLoop, hskip, if_neg (by simp)]
    rcases hadv with ha | ha | ha <;> rw [ha]
  · intro b rest rc nc rv hb hrel hset hp2 hckt hvp
    have hskip : (b32v && decide (0xffffffff < b)) = false := by
      cases b32v with
      | false => rfl
      | true => simp [Nat.not_lt.mpr (hb rfl)]
    have hatt : attempt ext c' b = Except.ok (some rv) := by
      simp only [attempt, hparse, hrel, hset, hp2, hckt, hvp, exbind_ok, if_true,
        expure]
    rw [rebaseLoop, hskip, if_neg (by simp), hatt]
    rfl

/-- Witness for C5: the concrete rebase run enters the loop, a 33-bit
candidate is skipped for the 32-bit image, the single real candidate
rebases and verifies, and the empty list fails. -/
theorem validate_image_rebase_behavior_witness :
    validate_image_section extReb [("exe", [0x400000])] SIG32 "exe" =
        rebaseLoop extReb SIG32 true [0x400000] ∧
      rebaseLoop extReb SIG32 true [0x100000000, 0x400000] =
        rebaseLoop extReb SIG32 true [0x400000] ∧
      rebaseLoop extReb SIG32 true [] = Except.ok (.code .PE_REBUILT_FAILED) := by
  have h := validate_image_rebase_behavior extReb [("exe", [0x400000])] SIG32 SIG32
    "exe" true [0x400000] rfl rfl rfl rfl rfl
  exact ⟨h.1, h.2.1 0x100000000 [0x400000] rfl (by decide), h.2.2.2.2⟩

end Sigcheck
